import Mathlib

/-! TSC actor kinematics, Z layers and the level-load event.

A shallow embedding of

* `src/tsc/src/objects/actor.hpp` (`TSC::cActor`): the `ZLAYER_*` constants,
  the inline velocity helpers `Add_Velocity_{X,Y}`, `Add_Velocity_{X,Y}_{Max,Min}`
  and the inline position helpers `Set_Pos`, `Set_Pos_X`, `Set_Pos_Y`;
* `src/smc/src/scripting/events/level_load_event.cpp`
  (`SMC::Scripting::cLevel_Load_Event`).

Modelling conventions.

* A member function becomes a function from the object before the call to the
  object after the call.  Pointers to other objects (`cLevel*`, `cActor*`) are
  optional numeric handles.
* Global state read by a member function (the speed factor) is an explicit
  argument.
* Two models of the C++ `float` are used.
  - In the exact layer (namespace `TSC`) a `float` is the rational number it
    denotes and arithmetic is exact; NaN and the infinities are not
    represented.  It carries the position helpers, the case of the clamps in
    which nothing is clamped, their idempotence, and the decimal values of
    the `ZLAYER_*` literals.
  - In the single-precision layer (namespace `TSC.Single`, values
    `TSC.Binary32`) a `float` is an IEEE 754 binary32 value: NaN, the
    infinities, round-to-nearest-even on literals, sums and products, and
    comparisons that are false on NaN.  It carries the bounds that the clamps
    establish and the order of the effective Z values, which depend on the
    comparison with NaN and on the rounding of the sum.
-/

namespace TSC

/-! ## SFML value types used by `cActor` -/

/-- The SFML pair of floats `sf::Vector2f`. -/
structure Vector2f where
  x : ℚ
  y : ℚ
  deriving DecidableEq

/-- The SFML rectangle `sf::FloatRect`. -/
structure FloatRect where
  left : ℚ
  top : ℚ
  width : ℚ
  height : ℚ
  deriving DecidableEq

/-- The state held by the base class `sf::Transformable`. -/
structure Transformable where
  m_origin : Vector2f
  m_position : Vector2f
  m_rotation : ℚ
  m_scale : Vector2f
  deriving DecidableEq

/-- SFML accessor `sf::Transformable::getPosition()`. -/
def Transformable.getPosition (t : Transformable) : Vector2f :=
  t.m_position

/-- SFML mutator `sf::Transformable::setPosition(x, y)`: only the stored position changes. -/
def Transformable.setPosition (t : Transformable) (x y : ℚ) : Transformable :=
  { t with m_position := { x := x, y := y } }

/-! ## `cActor` -/

/-- The type `cActor::ZLayer` (`typedef float ZLayer`). -/
abbrev ZLayer := ℚ

/-- Minimum Z position for passive objects (`0.01f`). -/
def ZLAYER_PASSIVE : ZLayer := 0.01
/-- Minimum Z position for half-massive objects (`0.04f`). -/
def ZLAYER_HALFMASSIVE : ZLayer := 0.04
/-- Minimum Z position for climbable objects (`0.05f`). -/
def ZLAYER_CLIMBABLE : ZLayer := 0.05
/-- Minimum Z position for massive objects (`0.08f`). -/
def ZLAYER_MASSIVE : ZLayer := 0.08
/-- Z position of the level player (`0.0999f`). -/
def ZLAYER_PLAYER : ZLayer := 0.0999
/-- Minimum Z position for front-passive objects (`0.10f`). -/
def ZLAYER_FRONTPASSIVE : ZLayer := 0.10
/-- Minimum Z step (`0.000001f`). -/
def ZLAYER_POS_DELTA : ZLayer := 0.000001

/-- The data members of `cActor`, preceded by its `sf::Transformable` base.
The enumerations `CollisionType` and `GroundType` are declared outside
`actor.hpp`; their values are kept as numeric tags.  The debug shape
`m_debug_colrect_shape` is kept as the rectangle it displays. -/
structure cActor where
  transformable : Transformable
  mp_level : Option Nat
  m_uid : Nat
  m_start_pos : Vector2f
  m_collision_rect : FloatRect
  m_name : String
  m_debug_colrect_shape : FloatRect
  m_gravity_max : ℚ
  m_gravity_accel : ℚ
  mp_ground_object : Option Nat
  m_can_be_ground : Bool
  m_ground_type : Nat
  m_velocity : Vector2f
  m_coltype : Nat
  m_pos_z : ℚ
  m_z_layer : ZLayer
  deriving DecidableEq

namespace cActor

/-- Inherited `getPosition()`. -/
def getPosition (a : cActor) : Vector2f :=
  a.transformable.getPosition

/-- Inherited `setPosition(x, y)`. -/
def setPosition (a : cActor) (x y : ℚ) : cActor :=
  { a with transformable := a.transformable.setPosition x y }

/-- Inline accessor `Get_Collision_Rect()`. -/
def Get_Collision_Rect (a : cActor) : FloatRect :=
  a.m_collision_rect

/-- Inline accessor `Get_UID()`. -/
def Get_UID (a : cActor) : Nat :=
  a.m_uid

/-- Modelled from the spec: `cActor::Accelerate_X` is only declared in
`actor.hpp`; its body is not part of the sources.  The spec says it adds the
delta to the velocity, the delta being first scaled by the global speed factor
unless `real` is set. -/
def Accelerate_X (speedfactor : ℚ) (a : cActor) (deltax : ℚ) (real : Bool) : cActor :=
  { a with m_velocity :=
      { a.m_velocity with
        x := a.m_velocity.x + (if real then deltax else deltax * speedfactor) } }

/-- Modelled from the spec: `cActor::Accelerate_Y` is only declared in
`actor.hpp`; its body is not part of the sources.  The spec says it adds the
delta to the velocity, the delta being first scaled by the global speed factor
unless `real` is set. -/
def Accelerate_Y (speedfactor : ℚ) (a : cActor) (deltay : ℚ) (real : Bool) : cActor :=
  { a with m_velocity :=
      { a.m_velocity with
        y := a.m_velocity.y + (if real then deltay else deltay * speedfactor) } }

/-- Inline `Add_Velocity_X(x, real)`: forwards to `Accelerate_X`. -/
def Add_Velocity_X (speedfactor : ℚ) (a : cActor) (x : ℚ) (real : Bool) : cActor :=
  Accelerate_X speedfactor a x real

/-- Inline `Add_Velocity_Y(y, real)`: forwards to `Accelerate_Y`. -/
def Add_Velocity_Y (speedfactor : ℚ) (a : cActor) (y : ℚ) (real : Bool) : cActor :=
  Accelerate_Y speedfactor a y real

/-- Inline `Add_Velocity_X_Max(x, max_x, real)`. -/
def Add_Velocity_X_Max (speedfactor : ℚ) (a : cActor) (x max_x : ℚ) (real : Bool) : cActor :=
  let a1 := Add_Velocity_X speedfactor a x real
  if a1.m_velocity.x > max_x then
    { a1 with m_velocity := { a1.m_velocity with x := max_x } }
  else
    a1

/-- Inline `Add_Velocity_Y_Max(y, max_y, real)`. -/
def Add_Velocity_Y_Max (speedfactor : ℚ) (a : cActor) (y max_y : ℚ) (real : Bool) : cActor :=
  let a1 := Add_Velocity_Y speedfactor a y real
  if a1.m_velocity.y > max_y then
    { a1 with m_velocity := { a1.m_velocity with y := max_y } }
  else
    a1

/-- Inline `Add_Velocity_X_Min(x, min_x, real)`. -/
def Add_Velocity_X_Min (speedfactor : ℚ) (a : cActor) (x min_x : ℚ) (real : Bool) : cActor :=
  let a1 := Add_Velocity_X speedfactor a x real
  if a1.m_velocity.x < min_x then
    { a1 with m_velocity := { a1.m_velocity with x := min_x } }
  else
    a1

/-- Inline `Add_Velocity_Y_Min(y, min_y, real)`. -/
def Add_Velocity_Y_Min (speedfactor : ℚ) (a : cActor) (y min_y : ℚ) (real : Bool) : cActor :=
  let a1 := Add_Velocity_Y speedfactor a y real
  if a1.m_velocity.y < min_y then
    { a1 with m_velocity := { a1.m_velocity with y := min_y } }
  else
    a1

/-- Inline `Set_Pos(x, y, new_startpos)`. -/
def Set_Pos (a : cActor) (x y : ℚ) (new_startpos : Bool) : cActor :=
  let a1 :=
    if new_startpos then
      { a with m_start_pos := { x := x, y := y } }
    else
      a
  a1.setPosition x y

/-- Inline `Set_Pos_X(x, new_startpos)`. -/
def Set_Pos_X (a : cActor) (x : ℚ) (new_startpos : Bool) : cActor :=
  a.Set_Pos x a.getPosition.y new_startpos

/-- Inline `Set_Pos_Y(y, new_startpos)`. -/
def Set_Pos_Y (a : cActor) (y : ℚ) (new_startpos : Bool) : cActor :=
  a.Set_Pos a.getPosition.x y new_startpos

end cActor

/-- The Z-layer bands, in the documented order. -/
inductive ZBand where
  | passive
  | halfmassive
  | climbable
  | massive
  | player
  | frontpassive
  deriving DecidableEq, Repr

/-- Position of a band in the documented order
passive, half-massive, climbable, massive, player, front-passive. -/
def ZBand.rank : ZBand → Nat
  | .passive => 0
  | .halfmassive => 1
  | .climbable => 2
  | .massive => 3
  | .player => 4
  | .frontpassive => 5

/-- The `ZLAYER_*` constant of a band. -/
def ZBand.minimum : ZBand → ZLayer
  | .passive => ZLAYER_PASSIVE
  | .halfmassive => ZLAYER_HALFMASSIVE
  | .climbable => ZLAYER_CLIMBABLE
  | .massive => ZLAYER_MASSIVE
  | .player => ZLAYER_PLAYER
  | .frontpassive => ZLAYER_FRONTPASSIVE

/-- The band directly above a band; the front-passive band is the last one. -/
def ZBand.next : ZBand → ZBand
  | .passive => .halfmassive
  | .halfmassive => .climbable
  | .climbable => .massive
  | .massive => .player
  | .player => .frontpassive
  | .frontpassive => .frontpassive

/-- A sample actor used to evaluate the definitions on concrete inputs. -/
def sampleActor : cActor where
  transformable :=
    { m_origin := { x := 0, y := 0 }
      m_position := { x := 3, y := 4 }
      m_rotation := 0
      m_scale := { x := 1, y := 1 } }
  mp_level := some 1
  m_uid := 7
  m_start_pos := { x := 1, y := 2 }
  m_collision_rect := { left := 0, top := 0, width := 10, height := 20 }
  m_name := "sample"
  m_debug_colrect_shape := { left := 0, top := 0, width := 10, height := 20 }
  m_gravity_max := 5
  m_gravity_accel := 1 / 2
  mp_ground_object := none
  m_can_be_ground := false
  m_ground_type := 0
  m_velocity := { x := 2, y := -1 }
  m_coltype := 0
  m_pos_z := 0
  m_z_layer := ZLAYER_PASSIVE

end TSC


/-! ## Single-precision values -/

namespace TSC

/-- A value of the IEEE 754 binary32 format, the C++ `float` of the sources:
a NaN, one of the two infinities, or a finite value given by the rational it
denotes.  The two zeros, which compare equal, are one value.  The operations
below return only rationals that binary32 can hold (`isRepresentable`); the
properties proved for every `fin q` hold in particular for those. -/
inductive Binary32 where
  | nan
  | ninf
  | pinf
  | fin (q : ℚ)
  deriving DecidableEq

namespace Binary32

/-- Nearest integer to a non-negative rational, ties going to the even one. -/
def roundHalfEven (s : ℚ) : ℕ :=
  let f := ⌊s⌋.toNat
  let r := s - f
  if r < 1 / 2 then f
  else if 1 / 2 < r then f + 1
  else if f % 2 = 0 then f else f + 1

/-- Halving count used by `log2`; the first argument bounds the recursion. -/
def log2Aux : ℕ → ℕ → ℕ
  | 0, _ => 0
  | fuel + 1, n => if n < 2 then 0 else log2Aux fuel (n / 2) + 1

/-- Floor of the base-2 logarithm of a positive natural number. -/
def log2 (n : ℕ) : ℕ :=
  log2Aux n n

/-- Floor of the base-2 logarithm of a positive rational. -/
def ilog2 (a : ℚ) : ℤ :=
  let k0 : ℤ := (log2 a.num.toNat : ℤ) - (log2 a.den : ℤ)
  if (2 : ℚ) ^ k0 ≤ a then k0 else k0 - 1

/-- Round a positive magnitude to 24 significant bits, with the spacing never
below `2^-149` (the subnormal range), ties to even. -/
def roundMag (a : ℚ) : ℚ :=
  let e : ℤ := max (ilog2 a - 23) (-149)
  (roundHalfEven (a / 2 ^ e) : ℚ) * 2 ^ e

/-- Round-to-nearest-even conversion of an exact value to binary32; a
magnitude that rounds to `2^128` or more overflows to an infinity. -/
def ofRat (x : ℚ) : Binary32 :=
  if x = 0 then fin 0
  else
    let v := roundMag |x|
    if (2 : ℚ) ^ (128 : ℕ) ≤ v then (if 0 < x then pinf else ninf)
    else fin (if 0 < x then v else -v)

/-- Whether binary32 can hold the value: a finite value has to be a fixed point
of the rounding. -/
def isRepresentable : Binary32 → Bool
  | fin q => decide (ofRat q = fin q)
  | _ => true

/-- Binary32 addition `a + b`. -/
def add : Binary32 → Binary32 → Binary32
  | nan, _ => nan
  | _, nan => nan
  | pinf, ninf => nan
  | ninf, pinf => nan
  | pinf, _ => pinf
  | _, pinf => pinf
  | ninf, _ => ninf
  | _, ninf => ninf
  | fin a, fin b => ofRat (a + b)

/-- Product of an infinity of sign `positive` with a finite value. -/
def mulInf (positive : Bool) (q : ℚ) : Binary32 :=
  if q = 0 then nan
  else if decide (0 < q) = positive then pinf else ninf

/-- Binary32 multiplication `a * b`. -/
def mul : Binary32 → Binary32 → Binary32
  | nan, _ => nan
  | _, nan => nan
  | pinf, pinf => pinf
  | ninf, ninf => pinf
  | pinf, ninf => ninf
  | ninf, pinf => ninf
  | pinf, fin q => mulInf true q
  | fin q, pinf => mulInf true q
  | ninf, fin q => mulInf false q
  | fin q, ninf => mulInf false q
  | fin a, fin b => ofRat (a * b)

/-- The comparison `a < b` of C++ floats: false as soon as an operand is NaN. -/
def blt : Binary32 → Binary32 → Bool
  | fin a, fin b => decide (a < b)
  | ninf, fin _ => true
  | ninf, pinf => true
  | fin _, pinf => true
  | _, _ => false

/-- The comparison `a <= b` of C++ floats: false as soon as an operand is NaN. -/
def ble : Binary32 → Binary32 → Bool
  | fin a, fin b => decide (a ≤ b)
  | ninf, ninf => true
  | ninf, fin _ => true
  | ninf, pinf => true
  | fin _, pinf => true
  | pinf, pinf => true
  | _, _ => false

instance : LT Binary32 := ⟨fun a b => blt a b = true⟩

instance : LE Binary32 := ⟨fun a b => ble a b = true⟩

instance (a b : Binary32) : Decidable (a < b) :=
  inferInstanceAs (Decidable (blt a b = true))

instance (a b : Binary32) : Decidable (a ≤ b) :=
  inferInstanceAs (Decidable (ble a b = true))

end Binary32

/-! ## `cActor` over single-precision values -/

namespace Single

/-- The SFML pair of floats `sf::Vector2f`. -/
structure Vector2f where
  x : Binary32
  y : Binary32
  deriving DecidableEq

/-- The SFML rectangle `sf::FloatRect`. -/
structure FloatRect where
  left : Binary32
  top : Binary32
  width : Binary32
  height : Binary32
  deriving DecidableEq

/-- The state held by the base class `sf::Transformable`. -/
structure Transformable where
  m_origin : Vector2f
  m_position : Vector2f
  m_rotation : Binary32
  m_scale : Vector2f
  deriving DecidableEq

/-- The type `cActor::ZLayer` (`typedef float ZLayer`). -/
abbrev ZLayer := Binary32

/-- Minimum Z position for passive objects: the float literal `0.01f`. -/
def ZLAYER_PASSIVE : ZLayer := Binary32.ofRat 0.01
/-- Minimum Z position for half-massive objects: the float literal `0.04f`. -/
def ZLAYER_HALFMASSIVE : ZLayer := Binary32.ofRat 0.04
/-- Minimum Z position for climbable objects: the float literal `0.05f`. -/
def ZLAYER_CLIMBABLE : ZLayer := Binary32.ofRat 0.05
/-- Minimum Z position for massive objects: the float literal `0.08f`. -/
def ZLAYER_MASSIVE : ZLayer := Binary32.ofRat 0.08
/-- Z position of the level player: the float literal `0.0999f`. -/
def ZLAYER_PLAYER : ZLayer := Binary32.ofRat 0.0999
/-- Minimum Z position for front-passive objects: the float literal `0.10f`. -/
def ZLAYER_FRONTPASSIVE : ZLayer := Binary32.ofRat 0.10
/-- Minimum Z step: the float literal `0.000001f`. -/
def ZLAYER_POS_DELTA : ZLayer := Binary32.ofRat 0.000001

/-- The data members of `cActor`, preceded by its `sf::Transformable` base,
every `float` being a binary32 value.  The enumerations `CollisionType` and
`GroundType` are declared outside `actor.hpp`; their values are kept as
numeric tags.  The debug shape `m_debug_colrect_shape` is kept as the
rectangle it displays. -/
structure cActor where
  transformable : Transformable
  mp_level : Option Nat
  m_uid : Nat
  m_start_pos : Vector2f
  m_collision_rect : FloatRect
  m_name : String
  m_debug_colrect_shape : FloatRect
  m_gravity_max : Binary32
  m_gravity_accel : Binary32
  mp_ground_object : Option Nat
  m_can_be_ground : Bool
  m_ground_type : Nat
  m_velocity : Vector2f
  m_coltype : Nat
  m_pos_z : Binary32
  m_z_layer : ZLayer
  deriving DecidableEq

namespace cActor

/-- Modelled from the spec: `cActor::Accelerate_X` is only declared in
`actor.hpp`; its body is not part of the sources.  The spec says it adds the
delta to the velocity, the delta being first scaled by the global speed factor
unless `real` is set. -/
def Accelerate_X (speedfactor : Binary32) (a : cActor) (deltax : Binary32) (real : Bool) :
    cActor :=
  { a with m_velocity :=
      { a.m_velocity with
        x := a.m_velocity.x.add (if real then deltax else deltax.mul speedfactor) } }

/-- Modelled from the spec: `cActor::Accelerate_Y` is only declared in
`actor.hpp`; its body is not part of the sources.  The spec says it adds the
delta to the velocity, the delta being first scaled by the global speed factor
unless `real` is set. -/
def Accelerate_Y (speedfactor : Binary32) (a : cActor) (deltay : Binary32) (real : Bool) :
    cActor :=
  { a with m_velocity :=
      { a.m_velocity with
        y := a.m_velocity.y.add (if real then deltay else deltay.mul speedfactor) } }

/-- Inline `Add_Velocity_X(x, real)`: forwards to `Accelerate_X`. -/
def Add_Velocity_X (speedfactor : Binary32) (a : cActor) (x : Binary32) (real : Bool) : cActor :=
  Accelerate_X speedfactor a x real

/-- Inline `Add_Velocity_Y(y, real)`: forwards to `Accelerate_Y`. -/
def Add_Velocity_Y (speedfactor : Binary32) (a : cActor) (y : Binary32) (real : Bool) : cActor :=
  Accelerate_Y speedfactor a y real

/-- Inline `Add_Velocity_X_Max(x, max_x, real)`. -/
def Add_Velocity_X_Max (speedfactor : Binary32) (a : cActor) (x max_x : Binary32)
    (real : Bool) : cActor :=
  let a1 := Add_Velocity_X speedfactor a x real
  if a1.m_velocity.x > max_x then
    { a1 with m_velocity := { a1.m_velocity with x := max_x } }
  else
    a1

/-- Inline `Add_Velocity_Y_Max(y, max_y, real)`. -/
def Add_Velocity_Y_Max (speedfactor : Binary32) (a : cActor) (y max_y : Binary32)
    (real : Bool) : cActor :=
  let a1 := Add_Velocity_Y speedfactor a y real
  if a1.m_velocity.y > max_y then
    { a1 with m_velocity := { a1.m_velocity with y := max_y } }
  else
    a1

/-- Inline `Add_Velocity_X_Min(x, min_x, real)`. -/
def Add_Velocity_X_Min (speedfactor : Binary32) (a : cActor) (x min_x : Binary32)
    (real : Bool) : cActor :=
  let a1 := Add_Velocity_X speedfactor a x real
  if a1.m_velocity.x < min_x then
    { a1 with m_velocity := { a1.m_velocity with x := min_x } }
  else
    a1

/-- Inline `Add_Velocity_Y_Min(y, min_y, real)`. -/
def Add_Velocity_Y_Min (speedfactor : Binary32) (a : cActor) (y min_y : Binary32)
    (real : Bool) : cActor :=
  let a1 := Add_Velocity_Y speedfactor a y real
  if a1.m_velocity.y < min_y then
    { a1 with m_velocity := { a1.m_velocity with y := min_y } }
  else
    a1

end cActor

/-- The `ZLAYER_*` constant of a band, as a float. -/
def bandMinimum : ZBand → ZLayer
  | .passive => ZLAYER_PASSIVE
  | .halfmassive => ZLAYER_HALFMASSIVE
  | .climbable => ZLAYER_CLIMBABLE
  | .massive => ZLAYER_MASSIVE
  | .player => ZLAYER_PLAYER
  | .frontpassive => ZLAYER_FRONTPASSIVE

/-- A sample actor used to evaluate the definitions on concrete inputs. -/
def sampleActor : cActor where
  transformable :=
    { m_origin := { x := .fin 0, y := .fin 0 }
      m_position := { x := .fin 3, y := .fin 4 }
      m_rotation := .fin 0
      m_scale := { x := .fin 1, y := .fin 1 } }
  mp_level := some 1
  m_uid := 7
  m_start_pos := { x := .fin 1, y := .fin 2 }
  m_collision_rect := { left := .fin 0, top := .fin 0, width := .fin 10, height := .fin 20 }
  m_name := "sample"
  m_debug_colrect_shape :=
    { left := .fin 0, top := .fin 0, width := .fin 10, height := .fin 20 }
  m_gravity_max := .fin 5
  m_gravity_accel := .fin (1 / 2)
  mp_ground_object := none
  m_can_be_ground := false
  m_ground_type := 0
  m_velocity := { x := .fin 2, y := .fin (-1) }
  m_coltype := 0
  m_pos_z := .fin 0
  m_z_layer := ZLAYER_PASSIVE

/-- The sample actor placed in a band with a given offset. -/
def actorAt (b : ZBand) (offset : Binary32) : cActor :=
  { sampleActor with m_z_layer := bandMinimum b, m_pos_z := offset }

end Single

end TSC
namespace SMC
namespace Scripting

/-- The data member of `cLevel_Load_Event` used by the functions of
`level_load_event.cpp`. -/
structure cLevel_Load_Event where
  m_save_data : String
  deriving DecidableEq

namespace cLevel_Load_Event

/-- Constructor `cLevel_Load_Event(std::string save_data)`. -/
def new (save_data : String) : cLevel_Load_Event :=
  { m_save_data := save_data }

/-- Member function `Event_Name()`: the returned string and the object after the call. -/
def Event_Name (e : cLevel_Load_Event) : String × cLevel_Load_Event :=
  ("load", e)

/-- Member function `Get_Save_Data()`: the returned string and the object after the call. -/
def Get_Save_Data (e : cLevel_Load_Event) : String × cLevel_Load_Event :=
  (e.m_save_data, e)

/-- The object after `n` successive calls of `Get_Save_Data()`. -/
def afterGets : Nat → cLevel_Load_Event → cLevel_Load_Event
  | 0, e => e
  | n + 1, e => afterGets n (Get_Save_Data e).2

end cLevel_Load_Event

end Scripting
end SMC

/-! # Properties -/

namespace TSC

open cActor

/-! ## The definitions on concrete inputs -/

theorem sample_x_max_clamps :
    (Add_Velocity_X_Max 1 sampleActor 5 3 true).m_velocity = { x := 3, y := -1 } := by
  norm_num [Add_Velocity_X_Max, Add_Velocity_X, Accelerate_X, sampleActor]

theorem sample_x_max_scaled_below :
    (Add_Velocity_X_Max 2 sampleActor (-50) 3 false).m_velocity = { x := -98, y := -1 } := by
  norm_num [Add_Velocity_X_Max, Add_Velocity_X, Accelerate_X, sampleActor]

theorem sample_x_min_clamps :
    (Add_Velocity_X_Min 2 sampleActor (-5) 0 false).m_velocity = { x := 0, y := -1 } := by
  norm_num [Add_Velocity_X_Min, Add_Velocity_X, Accelerate_X, sampleActor]

theorem sample_y_max_clamps :
    (Add_Velocity_Y_Max 1 sampleActor 9 5 true).m_velocity = { x := 2, y := 5 } := by
  norm_num [Add_Velocity_Y_Max, Add_Velocity_Y, Accelerate_Y, sampleActor]

theorem sample_y_min_keeps :
    (Add_Velocity_Y_Min 1 sampleActor 9 5 true).m_velocity = { x := 2, y := 8 } := by
  norm_num [Add_Velocity_Y_Min, Add_Velocity_Y, Accelerate_Y, sampleActor]

theorem sample_set_pos_x :
    (sampleActor.Set_Pos_X 9 true).getPosition = { x := 9, y := 4 } ∧
    (sampleActor.Set_Pos_X 9 true).m_start_pos = { x := 9, y := 4 } ∧
    (sampleActor.Set_Pos_X 9 false).m_start_pos = { x := 1, y := 2 } := by
  simp [Set_Pos_X, Set_Pos, setPosition, getPosition, Transformable.setPosition,
    Transformable.getPosition, sampleActor]

/-! ## Shared facts about the velocity helpers, exact layer -/

theorem accelerate_x_velocity (speedfactor : ℚ) (a : cActor) (deltax : ℚ) (real : Bool) :
    (Accelerate_X speedfactor a deltax real).m_velocity =
      { x := a.m_velocity.x + (if real then deltax else deltax * speedfactor),
        y := a.m_velocity.y } := rfl

theorem accelerate_y_velocity (speedfactor : ℚ) (a : cActor) (deltay : ℚ) (real : Bool) :
    (Accelerate_Y speedfactor a deltay real).m_velocity =
      { x := a.m_velocity.x,
        y := a.m_velocity.y + (if real then deltay else deltay * speedfactor) } := rfl

theorem accelerate_x_zero (speedfactor : ℚ) (a : cActor) (real : Bool) :
    Accelerate_X speedfactor a 0 real = a := by
  cases real <;> simp [Accelerate_X]

theorem accelerate_y_zero (speedfactor : ℚ) (a : cActor) (real : Bool) :
    Accelerate_Y speedfactor a 0 real = a := by
  cases real <;> simp [Accelerate_Y]

theorem add_velocity_x_max_eq (speedfactor : ℚ) (a : cActor) (x max_x : ℚ) (real : Bool) :
    Add_Velocity_X_Max speedfactor a x max_x real =
      { Accelerate_X speedfactor a x real with
        m_velocity :=
          { x := min max_x (Accelerate_X speedfactor a x real).m_velocity.x,
            y := (Accelerate_X speedfactor a x real).m_velocity.y } } := by
  unfold Add_Velocity_X_Max Add_Velocity_X
  by_cases h : (Accelerate_X speedfactor a x real).m_velocity.x > max_x
  · simp [h, min_eq_left (le_of_lt h)]
  · simp [h, min_eq_right (le_of_not_gt h)]

theorem add_velocity_y_max_eq (speedfactor : ℚ) (a : cActor) (y max_y : ℚ) (real : Bool) :
    Add_Velocity_Y_Max speedfactor a y max_y real =
      { Accelerate_Y speedfactor a y real with
        m_velocity :=
          { x := (Accelerate_Y speedfactor a y real).m_velocity.x,
            y := min max_y (Accelerate_Y speedfactor a y real).m_velocity.y } } := by
  unfold Add_Velocity_Y_Max Add_Velocity_Y
  by_cases h : (Accelerate_Y speedfactor a y real).m_velocity.y > max_y
  · simp [h, min_eq_left (le_of_lt h)]
  · simp [h, min_eq_right (le_of_not_gt h)]

theorem add_velocity_x_min_eq (speedfactor : ℚ) (a : cActor) (x min_x : ℚ) (real : Bool) :
    Add_Velocity_X_Min speedfactor a x min_x real =
      { Accelerate_X speedfactor a x real with
        m_velocity :=
          { x := max min_x (Accelerate_X speedfactor a x real).m_velocity.x,
            y := (Accelerate_X speedfactor a x real).m_velocity.y } } := by
  unfold Add_Velocity_X_Min Add_Velocity_X
  by_cases h : (Accelerate_X speedfactor a x real).m_velocity.x < min_x
  · simp [h, max_eq_left (le_of_lt h)]
  · simp [h, max_eq_right (le_of_not_gt h)]

theorem add_velocity_y_min_eq (speedfactor : ℚ) (a : cActor) (y min_y : ℚ) (real : Bool) :
    Add_Velocity_Y_Min speedfactor a y min_y real =
      { Accelerate_Y speedfactor a y real with
        m_velocity :=
          { x := (Accelerate_Y speedfactor a y real).m_velocity.x,
            y := max min_y (Accelerate_Y speedfactor a y real).m_velocity.y } } := by
  unfold Add_Velocity_Y_Min Add_Velocity_Y
  by_cases h : (Accelerate_Y speedfactor a y real).m_velocity.y < min_y
  · simp [h, max_eq_left (le_of_lt h)]
  · simp [h, max_eq_right (le_of_not_gt h)]

end TSC

namespace TSC

open cActor

/-- C10: once a clamping helper has run with a bound, running the same helper
again with a zero delta and the same bound leaves the whole actor, and so its
velocity, unchanged; this holds for `Add_Velocity_X_Max`, `Add_Velocity_X_Min`,
`Add_Velocity_Y_Max` and `Add_Velocity_Y_Min`, with either flag in either
call. -/
theorem add_velocity_clamp_idempotent (speedfactor : ℚ) (a : cActor) (d m : ℚ)
    (real real2 : Bool) :
    Add_Velocity_X_Max speedfactor (Add_Velocity_X_Max speedfactor a d m real) 0 m real2 =
      Add_Velocity_X_Max speedfactor a d m real ∧
    Add_Velocity_X_Min speedfactor (Add_Velocity_X_Min speedfactor a d m real) 0 m real2 =
      Add_Velocity_X_Min speedfactor a d m real ∧
    Add_Velocity_Y_Max speedfactor (Add_Velocity_Y_Max speedfactor a d m real) 0 m real2 =
      Add_Velocity_Y_Max speedfactor a d m real ∧
    Add_Velocity_Y_Min speedfactor (Add_Velocity_Y_Min speedfactor a d m real) 0 m real2 =
      Add_Velocity_Y_Min speedfactor a d m real := by
  refine ⟨?_, ?_, ?_, ?_⟩
  · rw [add_velocity_x_max_eq speedfactor _ 0 m real2, accelerate_x_zero,
      add_velocity_x_max_eq speedfactor a d m real]
    simp
  · rw [add_velocity_x_min_eq speedfactor _ 0 m real2, accelerate_x_zero,
      add_velocity_x_min_eq speedfactor a d m real]
    simp
  · rw [add_velocity_y_max_eq speedfactor _ 0 m real2, accelerate_y_zero,
      add_velocity_y_max_eq speedfactor a d m real]
    simp
  · rw [add_velocity_y_min_eq speedfactor _ 0 m real2, accelerate_y_zero,
      add_velocity_y_min_eq speedfactor a d m real]
    simp

end TSC

namespace TSC

open cActor

/-! ## Z layers -/

/-- C7: the band minimums are strictly increasing in the documented order,
`ZLAYER_POS_DELTA` is positive, and each gap between two consecutive band
minimums is at least `ZLAYER_POS_DELTA`. -/
theorem zlayer_constants_increasing :
    (ZLAYER_PASSIVE < ZLAYER_HALFMASSIVE ∧ ZLAYER_HALFMASSIVE < ZLAYER_CLIMBABLE ∧
      ZLAYER_CLIMBABLE < ZLAYER_MASSIVE ∧ ZLAYER_MASSIVE < ZLAYER_PLAYER ∧
      ZLAYER_PLAYER < ZLAYER_FRONTPASSIVE) ∧
    0 < ZLAYER_POS_DELTA ∧
    (ZLAYER_POS_DELTA ≤ ZLAYER_HALFMASSIVE - ZLAYER_PASSIVE ∧
      ZLAYER_POS_DELTA ≤ ZLAYER_CLIMBABLE - ZLAYER_HALFMASSIVE ∧
      ZLAYER_POS_DELTA ≤ ZLAYER_MASSIVE - ZLAYER_CLIMBABLE ∧
      ZLAYER_POS_DELTA ≤ ZLAYER_PLAYER - ZLAYER_MASSIVE ∧
      ZLAYER_POS_DELTA ≤ ZLAYER_FRONTPASSIVE - ZLAYER_PLAYER) ∧
    (∀ b1 b2 : ZBand, b1.rank < b2.rank → b1.minimum < b2.minimum) ∧
    (∀ b : ZBand, b ≠ ZBand.frontpassive →
      b.minimum + ZLAYER_POS_DELTA < b.next.minimum) := by
  refine ⟨?_, ?_, ?_, ?_, ?_⟩
  · norm_num [ZLAYER_PASSIVE, ZLAYER_HALFMASSIVE, ZLAYER_CLIMBABLE, ZLAYER_MASSIVE,
      ZLAYER_PLAYER, ZLAYER_FRONTPASSIVE]
  · norm_num [ZLAYER_POS_DELTA]
  · norm_num [ZLAYER_PASSIVE, ZLAYER_HALFMASSIVE, ZLAYER_CLIMBABLE, ZLAYER_MASSIVE,
      ZLAYER_PLAYER, ZLAYER_FRONTPASSIVE, ZLAYER_POS_DELTA]
  · intro b1 b2 h
    cases b1 <;> cases b2 <;>
      simp [ZBand.rank] at h <;>
      norm_num [ZBand.minimum, ZLAYER_PASSIVE, ZLAYER_HALFMASSIVE, ZLAYER_CLIMBABLE,
        ZLAYER_MASSIVE, ZLAYER_PLAYER, ZLAYER_FRONTPASSIVE]
  · intro b hb
    cases b <;>
      first
      | exact absurd rfl hb
      | norm_num [ZBand.next, ZBand.minimum, ZLAYER_PASSIVE, ZLAYER_HALFMASSIVE,
          ZLAYER_CLIMBABLE, ZLAYER_MASSIVE, ZLAYER_PLAYER, ZLAYER_FRONTPASSIVE,
          ZLAYER_POS_DELTA]

/-! ## Position helpers -/

/-- C5: `Set_Pos(x, y, new_startpos)` sets the position to `(x, y)`; the start
position becomes `(x, y)` when `new_startpos` is true and is unchanged
otherwise; the flag acts on its own call only; and the collision rectangle
returned by `Get_Collision_Rect()`, the velocity, the uid and the ground
reference are unchanged. -/
theorem set_pos_effect (a : cActor) (x y x2 y2 : ℚ) (new_startpos : Bool) :
    (a.Set_Pos x y new_startpos).getPosition = { x := x, y := y } ∧
    (a.Set_Pos x y new_startpos).m_start_pos =
      (if new_startpos then { x := x, y := y } else a.m_start_pos) ∧
    (a.Set_Pos x y true).m_start_pos = { x := x, y := y } ∧
    (a.Set_Pos x y false).m_start_pos = a.m_start_pos ∧
    ((a.Set_Pos x y true).Set_Pos x2 y2 false).getPosition = { x := x2, y := y2 } ∧
    ((a.Set_Pos x y true).Set_Pos x2 y2 false).m_start_pos = { x := x, y := y } ∧
    (a.Set_Pos x y new_startpos).Get_Collision_Rect = a.Get_Collision_Rect ∧
    (a.Set_Pos x y new_startpos).m_velocity = a.m_velocity ∧
    (a.Set_Pos x y new_startpos).Get_UID = a.Get_UID ∧
    (a.Set_Pos x y new_startpos).m_uid = a.m_uid ∧
    (a.Set_Pos x y new_startpos).mp_ground_object = a.mp_ground_object := by
  cases new_startpos <;>
    simp [Set_Pos, setPosition, getPosition, Transformable.setPosition,
      Transformable.getPosition, Get_Collision_Rect, Get_UID]

/-- C9: `Set_Pos_X(x, new_startpos)` makes the position `(x, previous y)` and
`Set_Pos_Y(y, new_startpos)` makes it `(previous x, y)`; when `new_startpos` is
true the start position becomes that same new position, otherwise it is
unchanged. -/
theorem set_pos_x_y_effect (a : cActor) (v : ℚ) (new_startpos : Bool) :
    (a.Set_Pos_X v new_startpos).getPosition = { x := v, y := a.getPosition.y } ∧
    (a.Set_Pos_Y v new_startpos).getPosition = { x := a.getPosition.x, y := v } ∧
    (a.Set_Pos_X v new_startpos).m_start_pos =
      (if new_startpos then { x := v, y := a.getPosition.y } else a.m_start_pos) ∧
    (a.Set_Pos_Y v new_startpos).m_start_pos =
      (if new_startpos then { x := a.getPosition.x, y := v } else a.m_start_pos) := by
  cases new_startpos <;>
    simp [Set_Pos_X, Set_Pos_Y, Set_Pos, setPosition, getPosition, Transformable.setPosition,
      Transformable.getPosition]

end TSC


/-! ## Order of single-precision values -/

namespace TSC
namespace Binary32

theorem lt_iff_blt (a b : Binary32) : a < b ↔ blt a b = true := Iff.rfl

theorem le_iff_ble (a b : Binary32) : a ≤ b ↔ ble a b = true := Iff.rfl

theorem not_nan_le (a : Binary32) : ¬ (nan ≤ a) := by
  cases a <;> simp [le_iff_ble, ble]

theorem not_le_nan (a : Binary32) : ¬ (a ≤ nan) := by
  cases a <;> simp [le_iff_ble, ble]

theorem not_nan_lt (a : Binary32) : ¬ (nan < a) := by
  cases a <;> simp [lt_iff_blt, blt]

theorem not_lt_nan (a : Binary32) : ¬ (a < nan) := by
  cases a <;> simp [lt_iff_blt, blt]

theorem le_refl_of_ne_nan {a : Binary32} (h : a ≠ nan) : a ≤ a := by
  cases a <;> simp_all [le_iff_ble, ble]

theorem lt_implies_le {a b : Binary32} (h : a < b) : a ≤ b := by
  cases a <;> cases b <;> simp_all [le_iff_ble, lt_iff_blt, ble, blt]
  exact h.le

theorem not_lt_implies_le {a b : Binary32} (ha : a ≠ nan) (hb : b ≠ nan) (h : ¬ b < a) :
    a ≤ b := by
  cases a <;> cases b <;> simp_all [le_iff_ble, lt_iff_blt, ble, blt]

theorem le_implies_not_lt {a b : Binary32} (h : a ≤ b) : ¬ b < a := by
  cases a <;> cases b <;> simp_all [le_iff_ble, lt_iff_blt, ble, blt]

theorem lt_le_trans {a b c : Binary32} (hab : a < b) (hbc : b ≤ c) : a < c := by
  cases a <;> cases b <;> cases c <;> simp_all [le_iff_ble, lt_iff_blt, ble, blt]
  exact hab.trans_le hbc

theorem le_le_trans {a b c : Binary32} (hab : a ≤ b) (hbc : b ≤ c) : a ≤ c := by
  cases a <;> cases b <;> cases c <;> simp_all [le_iff_ble, lt_iff_blt, ble, blt]
  exact hab.trans hbc

theorem ne_nan_of_le_left {a b : Binary32} (h : a ≤ b) : a ≠ nan := by
  intro ha; rw [ha] at h; exact not_nan_le b h

theorem ne_nan_of_le_right {a b : Binary32} (h : a ≤ b) : b ≠ nan := by
  intro hb; rw [hb] at h; exact not_le_nan a h

/-! ## Rounding keeps a representable lower bound -/

theorem log2Aux_spec (fuel n : ℕ) (hn : 1 ≤ n) (hf : n ≤ fuel) :
    2 ^ log2Aux fuel n ≤ n ∧ n < 2 ^ (log2Aux fuel n + 1) := by
  induction fuel generalizing n with
  | zero => omega
  | succ f ih =>
    unfold log2Aux
    by_cases h2 : n < 2
    · simp only [h2, if_true]
      constructor <;> omega
    · simp only [h2, if_false]
      have hdiv : 1 ≤ n / 2 := by omega
      have hle : n / 2 ≤ f := by omega
      obtain ⟨h1, h3⟩ := ih (n / 2) hdiv hle
      rw [pow_succ, pow_succ]
      constructor <;> omega

theorem log2_spec (n : ℕ) (hn : 1 ≤ n) : 2 ^ log2 n ≤ n ∧ n < 2 ^ (log2 n + 1) :=
  log2Aux_spec n n hn (le_refl n)

theorem ilog2_spec (a : ℚ) (ha : 0 < a) :
    (2 : ℚ) ^ ilog2 a ≤ a ∧ a < (2 : ℚ) ^ (ilog2 a + 1) := by
  have hnum : 0 < a.num := Rat.num_pos.mpr ha
  have hden : 1 ≤ a.den := a.den_pos
  have hnat : 1 ≤ a.num.toNat := by omega
  obtain ⟨n1, n2⟩ := log2_spec a.num.toNat hnat
  obtain ⟨d1, d2⟩ := log2_spec a.den hden
  set ln := log2 a.num.toNat with hln
  set ld := log2 a.den with hld
  have hnumq : (a.num.toNat : ℚ) = (a.num : ℚ) := by
    rw [← Int.cast_natCast, Int.toNat_of_nonneg hnum.le]
  have hden0 : (0 : ℚ) < a.den := by exact_mod_cast a.den_pos
  have haeq : a = (a.num : ℚ) / a.den := (Rat.num_div_den a).symm
  have qn1 : (2 : ℚ) ^ ln ≤ a.num := by
    rw [← hnumq]; exact_mod_cast n1
  have qn2 : (a.num : ℚ) < 2 ^ (ln + 1) := by
    rw [← hnumq]; exact_mod_cast n2
  have qd1 : (2 : ℚ) ^ ld ≤ a.den := by exact_mod_cast d1
  have qd2 : (a.den : ℚ) < 2 ^ (ld + 1) := by exact_mod_cast d2
  have hk0 : (2 : ℚ) ^ ((ln : ℤ) - (ld : ℤ)) = 2 ^ ln / 2 ^ ld := by
    rw [zpow_sub₀ (by norm_num : (2 : ℚ) ≠ 0), zpow_natCast, zpow_natCast]
  have hup : a < (2 : ℚ) ^ ((ln : ℤ) - (ld : ℤ) + 1) := by
    rw [zpow_add_one₀ (by norm_num : (2 : ℚ) ≠ 0), hk0]
    have hp : (0 : ℚ) < 2 ^ ld := by positivity
    rw [haeq, div_lt_iff₀ hden0]
    calc (a.num : ℚ) < 2 ^ (ln + 1) := qn2
      _ = 2 ^ ln / 2 ^ ld * 2 * 2 ^ ld := by field_simp; ring
      _ ≤ 2 ^ ln / 2 ^ ld * 2 * a.den := by
          apply mul_le_mul_of_nonneg_left qd1; positivity
  have hlow : (2 : ℚ) ^ ((ln : ℤ) - (ld : ℤ) - 1) ≤ a := by
    rw [zpow_sub_one₀ (by norm_num : (2 : ℚ) ≠ 0), hk0]
    have hp : (0 : ℚ) < 2 ^ ld := by positivity
    rw [haeq, le_div_iff₀ hden0]
    calc 2 ^ ln / 2 ^ ld * 2⁻¹ * (a.den : ℚ) ≤ 2 ^ ln / 2 ^ ld * 2⁻¹ * 2 ^ (ld + 1) := by
          apply mul_le_mul_of_nonneg_left qd2.le; positivity
      _ = 2 ^ ln := by field_simp; ring
      _ ≤ a.num := qn1
  unfold ilog2
  simp only []
  by_cases hc : (2 : ℚ) ^ ((ln : ℤ) - (ld : ℤ)) ≤ a
  · rw [if_pos hc]; exact ⟨hc, hup⟩
  · rw [if_neg hc]
    refine ⟨hlow, ?_⟩
    rw [sub_add_cancel]
    exact lt_of_not_le hc

theorem le_roundHalfEven (n : ℕ) (s : ℚ) (h : (n : ℚ) ≤ s) : n ≤ roundHalfEven s := by
  have hfl : (n : ℤ) ≤ ⌊s⌋ := Int.le_floor.mpr (by exact_mod_cast h)
  have hf : n ≤ ⌊s⌋.toNat := by omega
  unfold roundHalfEven
  simp only []
  split_ifs <;> omega

theorem le_roundMag (m : ℕ) (e : ℤ) (hm1 : 2 ^ 23 ≤ m) (hm2 : m < 2 ^ 24) (he : -149 ≤ e)
    (x : ℚ) (hx : (m : ℚ) * 2 ^ e ≤ x) : (m : ℚ) * 2 ^ e ≤ roundMag x := by
  have h2 : (0 : ℚ) < 2 := by norm_num
  have h2ne : (2 : ℚ) ≠ 0 := by norm_num
  have h21 : (1 : ℚ) < 2 := by norm_num
  have hpe : (0 : ℚ) < 2 ^ e := zpow_pos h2 e
  have hmq1 : (2 : ℚ) ^ (23 : ℕ) ≤ m := by exact_mod_cast hm1
  have hmq2 : (m : ℚ) < 2 ^ (24 : ℕ) := by exact_mod_cast hm2
  have hc1 : (2 : ℚ) ^ (e + 23) ≤ (m : ℚ) * 2 ^ e := by
    rw [zpow_add₀ h2ne, mul_comm]
    exact mul_le_mul_of_nonneg_right (by exact_mod_cast hmq1) hpe.le
  have hc2 : (m : ℚ) * 2 ^ e < 2 ^ (e + 24) := by
    rw [zpow_add₀ h2ne, mul_comm ((2 : ℚ) ^ e)]
    exact mul_lt_mul_of_pos_right (by exact_mod_cast hmq2) hpe
  have hxpos : 0 < x := lt_of_lt_of_le (lt_of_lt_of_le (zpow_pos h2 _) hc1) hx
  obtain ⟨k1, k2⟩ := ilog2_spec x hxpos
  have hlt : (2 : ℚ) ^ (e + 23) < 2 ^ (ilog2 x + 1) := lt_of_le_of_lt (hc1.trans hx) k2
  have hk : e + 23 < ilog2 x + 1 := (zpow_lt_zpow_iff_right₀ h21).mp hlt
  have hE : max (ilog2 x - 23) (-149) = ilog2 x - 23 := max_eq_left (by omega)
  unfold roundMag
  simp only [hE]
  have hpE : (0 : ℚ) < 2 ^ (ilog2 x - 23) := zpow_pos h2 _
  by_cases hcase : ilog2 x - 23 = e
  · rw [hcase]
    have hs : (m : ℚ) ≤ x / 2 ^ e := by
      rw [le_div_iff₀ hpe]; exact hx
    have := le_roundHalfEven m _ hs
    exact mul_le_mul_of_nonneg_right (by exact_mod_cast this) hpe.le
  · have hpow : ((2 ^ 23 : ℕ) : ℚ) * 2 ^ (ilog2 x - 23) = 2 ^ ilog2 x := by
      have h23 : ((2 ^ 23 : ℕ) : ℚ) = (2 : ℚ) ^ (23 : ℤ) := by norm_num
      rw [h23, ← zpow_add₀ h2ne]
      congr 1
      ring
    have hs : ((2 ^ 23 : ℕ) : ℚ) ≤ x / 2 ^ (ilog2 x - 23) := by
      rw [le_div_iff₀ hpE, hpow]
      exact k1
    have hr := le_roundHalfEven (2 ^ 23) _ hs
    have hle : (e + 24 : ℤ) ≤ ilog2 x := by omega
    calc (m : ℚ) * 2 ^ e ≤ 2 ^ (e + 24) := hc2.le
      _ ≤ 2 ^ ilog2 x := (zpow_le_zpow_iff_right₀ h21).mpr hle
      _ = ((2 ^ 23 : ℕ) : ℚ) * 2 ^ (ilog2 x - 23) := hpow.symm
      _ ≤ (roundHalfEven (x / 2 ^ (ilog2 x - 23)) : ℚ) * 2 ^ (ilog2 x - 23) :=
          mul_le_mul_of_nonneg_right (by exact_mod_cast hr) hpE.le

/-- Adding a non-negative offset to a positive normal value `m * 2^e` never
gives a float sum below that value. -/
theorem le_add_of_nonneg (m : ℕ) (e : ℤ) (hm1 : 2 ^ 23 ≤ m) (hm2 : m < 2 ^ 24)
    (he : -149 ≤ e) (off : Binary32) (h : fin 0 ≤ off) :
    fin ((m : ℚ) * 2 ^ e) ≤ (fin ((m : ℚ) * 2 ^ e)).add off := by
  have hpe : (0 : ℚ) < 2 ^ e := zpow_pos (by norm_num) e
  have hmpos : (0 : ℚ) < m := by
    have : 0 < m := lt_of_lt_of_le (by norm_num) hm1
    exact_mod_cast this
  have hc : (0 : ℚ) < (m : ℚ) * 2 ^ e := mul_pos hmpos hpe
  cases off with
  | nan => exact absurd h (not_le_nan _)
  | ninf => simp [le_iff_ble, ble] at h
  | pinf => simp [le_iff_ble, ble, add]
  | fin q =>
    have hq : 0 ≤ q := by simpa [le_iff_ble, ble] using h
    have hx : (m : ℚ) * 2 ^ e ≤ (m : ℚ) * 2 ^ e + q := by linarith
    have hxpos : 0 < (m : ℚ) * 2 ^ e + q := by linarith
    have hr := le_roundMag m e hm1 hm2 he _ hx
    show fin ((m : ℚ) * 2 ^ e) ≤ ofRat ((m : ℚ) * 2 ^ e + q)
    unfold ofRat
    rw [if_neg hxpos.ne', abs_of_pos hxpos]
    simp only [hxpos, if_true]
    split_ifs
    · simp [le_iff_ble, ble]
    · simpa [le_iff_ble, ble] using hr

end Binary32
end TSC

/-! ## The single-precision model on concrete inputs -/

namespace TSC
namespace Single

open cActor Binary32

theorem zlayer_binary32_values :
    ZLAYER_PASSIVE = .fin (5368709 / 536870912) ∧
    ZLAYER_HALFMASSIVE = .fin (5368709 / 134217728) ∧
    ZLAYER_CLIMBABLE = .fin (13421773 / 268435456) ∧
    ZLAYER_MASSIVE = .fin (5368709 / 67108864) ∧
    ZLAYER_PLAYER = .fin (13408351 / 134217728) ∧
    ZLAYER_FRONTPASSIVE = .fin (13421773 / 134217728) ∧
    ZLAYER_POS_DELTA = .fin (8796093 / 8796093022208) := by
  decide!

theorem zlayer_binary32_increasing :
    ZLAYER_PASSIVE < ZLAYER_HALFMASSIVE ∧ ZLAYER_HALFMASSIVE < ZLAYER_CLIMBABLE ∧
    ZLAYER_CLIMBABLE < ZLAYER_MASSIVE ∧ ZLAYER_MASSIVE < ZLAYER_PLAYER ∧
    ZLAYER_PLAYER < ZLAYER_FRONTPASSIVE ∧ Binary32.fin 0 < ZLAYER_POS_DELTA := by
  decide!

theorem binary32_rounding_samples :
    Binary32.ofRat 340282366920938463463374607431768211456 = .pinf ∧
    Binary32.ofRat (-340282356779733661637539395458142568448) = .ninf ∧
    Binary32.ofRat 340282356779733661637539395458142568447 =
      .fin 340282346638528859811704183484516925440 ∧
    Binary32.ofRat ((2 : ℚ) ^ (-150 : ℤ)) = .fin 0 ∧
    Binary32.ofRat (3 * (2 : ℚ) ^ (-150 : ℤ)) = .fin (2 * (2 : ℚ) ^ (-149 : ℤ)) ∧
    Binary32.add (.fin 16777216) (.fin 1) = .fin 16777216 ∧
    Binary32.add (.fin 16777216) (.fin 3) = .fin 16777220 ∧
    Binary32.add .pinf .ninf = .nan ∧
    Binary32.mul (.fin 0) .pinf = .nan ∧
    Binary32.mul (.fin (-2)) .pinf = .ninf := by
  decide!

theorem concrete_values_representable :
    ([.fin 0, .fin 1, .fin 2, .fin 3, .fin 4, .fin 5, .fin 7, .fin 8, .fin 9, .fin 10,
      .fin 20, .fin (-1), .fin (-5), .fin (-50), .fin (-98), .fin (1 / 2),
      .fin (8053063 / 268435456), Binary32.ofRat 0.0001, ZLAYER_PASSIVE, ZLAYER_HALFMASSIVE,
      ZLAYER_CLIMBABLE, ZLAYER_MASSIVE, ZLAYER_PLAYER, ZLAYER_FRONTPASSIVE,
      ZLAYER_POS_DELTA] : List Binary32).all Binary32.isRepresentable = true := by
  decide!

/-- A passive actor whose offset is below the exact distance to the
half-massive minimum can still have the half-massive minimum as its float sum:
`0.01f + 0x1.eb851cp-6f` rounds to `0.04f`, and `0.0999f + 0.0001f` to `0.10f`. -/
theorem offset_sum_rounds_onto_next_minimum :
    Binary32.fin (8053063 / 268435456) < .fin (5368709 / 134217728 - 5368709 / 536870912) ∧
    ZLAYER_PASSIVE.add (.fin (8053063 / 268435456)) = ZLAYER_HALFMASSIVE ∧
    ZLAYER_PLAYER.add (Binary32.ofRat 0.0001) = ZLAYER_FRONTPASSIVE := by
  decide!

theorem sample_x_max_binary32 :
    (Add_Velocity_X_Max (.fin 1) sampleActor (.fin 5) (.fin 3) true).m_velocity =
      { x := .fin 3, y := .fin (-1) } ∧
    (Add_Velocity_X_Max (.fin 2) sampleActor (.fin (-50)) (.fin 3) false).m_velocity =
      { x := .fin (-98), y := .fin (-1) } ∧
    (Add_Velocity_X_Min (.fin 2) sampleActor (.fin (-5)) (.fin 0) false).m_velocity =
      { x := .fin 0, y := .fin (-1) } ∧
    (Add_Velocity_Y_Max (.fin 1) sampleActor (.fin 9) (.fin 5) true).m_velocity =
      { x := .fin 2, y := .fin 5 } ∧
    (Add_Velocity_Y_Min (.fin 1) sampleActor (.fin 9) (.fin 5) true).m_velocity =
      { x := .fin 2, y := .fin 8 } := by
  decide!

/-! ## Velocity clamps on single-precision values -/

/-- C1, as stated, fails: with a NaN bound the test `m_velocity.x > max_x` is
false, the velocity 2 + 5 = 7 is left as it is and is not `≤` the bound; with
a NaN delta the accelerated velocity is NaN, the test is false again and the
velocity is not `≤` the bound 3. -/
theorem add_velocity_x_max_nan_not_le :
    (Add_Velocity_X_Max (.fin 1) sampleActor (.fin 5) .nan true).m_velocity.x = .fin 7 ∧
    ¬ ((Add_Velocity_X_Max (.fin 1) sampleActor (.fin 5) .nan true).m_velocity.x ≤ .nan) ∧
    (Add_Velocity_X_Max (.fin 1) sampleActor .nan (.fin 3) true).m_velocity.x = .nan ∧
    ¬ ((Add_Velocity_X_Max (.fin 1) sampleActor .nan (.fin 3) true).m_velocity.x ≤ .fin 3) := by
  decide!

/-- C1, amended: for every actor state, delta, flag and speed factor, and every
bound `max_x`, if neither `max_x` nor the `velocity.x` that
`Accelerate_X(x, real)` produces is NaN, then after
`Add_Velocity_X_Max(x, max_x, real)` the actor's `velocity.x` is at most
`max_x`. -/
theorem add_velocity_x_max_le_of_not_nan (speedfactor : Binary32) (a : cActor)
    (x max_x : Binary32) (real : Bool)
    (hb : max_x ≠ .nan)
    (hv : (Accelerate_X speedfactor a x real).m_velocity.x ≠ .nan) :
    (Add_Velocity_X_Max speedfactor a x max_x real).m_velocity.x ≤ max_x := by
  unfold Add_Velocity_X_Max Add_Velocity_X
  by_cases h : (Accelerate_X speedfactor a x real).m_velocity.x > max_x
  · simpa [h] using le_refl_of_ne_nan hb
  · simpa [h] using not_lt_implies_le hv hb h

/-- Witness for C1, amended: the sample actor (velocity.x = 2) with delta 5 and
bound 3 ends at 3. -/
theorem add_velocity_x_max_le_of_not_nan_witness :
    (Add_Velocity_X_Max (.fin 1) sampleActor (.fin 5) (.fin 3) true).m_velocity.x ≤ .fin 3 :=
  add_velocity_x_max_le_of_not_nan (.fin 1) sampleActor (.fin 5) (.fin 3) true
    (by decide) (by decide!)

/-- C3, as stated, fails: with a NaN bound the tests `m_velocity.x < min_x` and
`m_velocity.y < min_y` are false and the velocity left in place is not at
least the bound; with a NaN delta the accelerated velocity is NaN, the tests
are false again and the velocity is not at least the bound 3. -/
theorem add_velocity_min_nan_not_ge :
    (Add_Velocity_X_Min (.fin 1) sampleActor (.fin 5) .nan true).m_velocity.x = .fin 7 ∧
    ¬ (.nan ≤ (Add_Velocity_X_Min (.fin 1) sampleActor (.fin 5) .nan true).m_velocity.x) ∧
    (Add_Velocity_X_Min (.fin 1) sampleActor .nan (.fin 3) true).m_velocity.x = .nan ∧
    ¬ (.fin 3 ≤ (Add_Velocity_X_Min (.fin 1) sampleActor .nan (.fin 3) true).m_velocity.x) ∧
    (Add_Velocity_Y_Min (.fin 1) sampleActor (.fin 5) .nan true).m_velocity.y = .fin 4 ∧
    ¬ (.nan ≤ (Add_Velocity_Y_Min (.fin 1) sampleActor (.fin 5) .nan true).m_velocity.y) ∧
    (Add_Velocity_Y_Min (.fin 1) sampleActor .nan (.fin 3) true).m_velocity.y = .nan ∧
    ¬ (.fin 3 ≤ (Add_Velocity_Y_Min (.fin 1) sampleActor .nan (.fin 3) true).m_velocity.y) := by
  decide!

/-- C3, amended: when neither `min_x` nor the `velocity.x` that
`Accelerate_X(x, real)` produces is NaN, `Add_Velocity_X_Min(x, min_x, real)`
leaves `velocity.x` equal to the greater of the two: it is one of them, it is
at least `min_x`, it is never below the accelerated value, and it is the
accelerated value whenever that one is at least `min_x`, however large;
`Add_Velocity_Y_Min` does the same for `velocity.y` with `min_y`. -/
theorem add_velocity_min_clamps_below_of_not_nan (speedfactor : Binary32) (a : cActor)
    (x min_x y min_y : Binary32) (real : Bool) :
    (min_x ≠ .nan → (Accelerate_X speedfactor a x real).m_velocity.x ≠ .nan →
      ((Add_Velocity_X_Min speedfactor a x min_x real).m_velocity.x = min_x ∨
        (Add_Velocity_X_Min speedfactor a x min_x real).m_velocity.x =
          (Accelerate_X speedfactor a x real).m_velocity.x) ∧
      min_x ≤ (Add_Velocity_X_Min speedfactor a x min_x real).m_velocity.x ∧
      (Accelerate_X speedfactor a x real).m_velocity.x ≤
        (Add_Velocity_X_Min speedfactor a x min_x real).m_velocity.x ∧
      (min_x ≤ (Accelerate_X speedfactor a x real).m_velocity.x →
        (Add_Velocity_X_Min speedfactor a x min_x real).m_velocity.x =
          (Accelerate_X speedfactor a x real).m_velocity.x)) ∧
    (min_y ≠ .nan → (Accelerate_Y speedfactor a y real).m_velocity.y ≠ .nan →
      ((Add_Velocity_Y_Min speedfactor a y min_y real).m_velocity.y = min_y ∨
        (Add_Velocity_Y_Min speedfactor a y min_y real).m_velocity.y =
          (Accelerate_Y speedfactor a y real).m_velocity.y) ∧
      min_y ≤ (Add_Velocity_Y_Min speedfactor a y min_y real).m_velocity.y ∧
      (Accelerate_Y speedfactor a y real).m_velocity.y ≤
        (Add_Velocity_Y_Min speedfactor a y min_y real).m_velocity.y ∧
      (min_y ≤ (Accelerate_Y speedfactor a y real).m_velocity.y →
        (Add_Velocity_Y_Min speedfactor a y min_y real).m_velocity.y =
          (Accelerate_Y speedfactor a y real).m_velocity.y)) := by
  constructor
  · intro hb hv
    unfold Add_Velocity_X_Min Add_Velocity_X
    by_cases h : (Accelerate_X speedfactor a x real).m_velocity.x < min_x
    · simp only [h, if_true]
      exact ⟨Or.inl trivial, le_refl_of_ne_nan hb, lt_implies_le h,
        fun hle => absurd h (le_implies_not_lt hle)⟩
    · simp only [h, if_false]
      exact ⟨Or.inr trivial, not_lt_implies_le hb hv h, le_refl_of_ne_nan hv,
        fun _ => trivial⟩
  · intro hb hv
    unfold Add_Velocity_Y_Min Add_Velocity_Y
    by_cases h : (Accelerate_Y speedfactor a y real).m_velocity.y < min_y
    · simp only [h, if_true]
      exact ⟨Or.inl trivial, le_refl_of_ne_nan hb, lt_implies_le h,
        fun hle => absurd h (le_implies_not_lt hle)⟩
    · simp only [h, if_false]
      exact ⟨Or.inr trivial, not_lt_implies_le hb hv h, le_refl_of_ne_nan hv,
        fun _ => trivial⟩

/-- Witness for C3, amended: on the sample actor (velocity (2, -1), speed factor
2, scaled deltas) `Add_Velocity_X_Min(-5, 0)` lifts -8 to the bound 0 and
`Add_Velocity_Y_Min(3, 1)` keeps 5. -/
theorem add_velocity_min_clamps_below_of_not_nan_witness :
    (Add_Velocity_X_Min (.fin 2) sampleActor (.fin (-5)) (.fin 0) false).m_velocity.x = .fin 0 ∧
    Binary32.fin 0 ≤
      (Add_Velocity_X_Min (.fin 2) sampleActor (.fin (-5)) (.fin 0) false).m_velocity.x ∧
    (Add_Velocity_Y_Min (.fin 2) sampleActor (.fin 3) (.fin 1) false).m_velocity.y = .fin 5 ∧
    Binary32.fin 1 ≤
      (Add_Velocity_Y_Min (.fin 2) sampleActor (.fin 3) (.fin 1) false).m_velocity.y := by
  have h := add_velocity_min_clamps_below_of_not_nan (.fin 2) sampleActor
    (.fin (-5)) (.fin 0) (.fin 3) (.fin 1) false
  exact ⟨by decide!, (h.1 (by decide) (by decide!)).2.1, by decide!,
    (h.2 (by decide) (by decide!)).2.1⟩

/-- C8, as stated, fails: with a NaN bound the test `m_velocity.y > max_y` is
false, the velocity -1 + 5 = 4 is left as it is and is not `≤` the bound; with
a NaN delta the accelerated velocity is NaN, the test is false again and the
velocity is not `≤` the bound 3. -/
theorem add_velocity_y_max_nan_not_le :
    (Add_Velocity_Y_Max (.fin 1) sampleActor (.fin 5) .nan true).m_velocity.y = .fin 4 ∧
    ¬ ((Add_Velocity_Y_Max (.fin 1) sampleActor (.fin 5) .nan true).m_velocity.y ≤ .nan) ∧
    (Add_Velocity_Y_Max (.fin 1) sampleActor .nan (.fin 3) true).m_velocity.y = .nan ∧
    ¬ ((Add_Velocity_Y_Max (.fin 1) sampleActor .nan (.fin 3) true).m_velocity.y ≤ .fin 3) := by
  decide!

/-- C8, amended: when neither `max_y` nor the `velocity.y` that
`Accelerate_Y(y, real)` produces is NaN, `Add_Velocity_Y_Max(y, max_y, real)`
leaves `velocity.y` equal to the smaller of the two: it is one of them, it is
at most `max_y` and at most the accelerated value; and in every case
`velocity.x` is what `Accelerate_Y(y, real)` alone leaves it as. -/
theorem add_velocity_y_max_mirrors_of_not_nan (speedfactor : Binary32) (a : cActor)
    (y max_y : Binary32) (real : Bool) :
    (max_y ≠ .nan → (Accelerate_Y speedfactor a y real).m_velocity.y ≠ .nan →
      ((Add_Velocity_Y_Max speedfactor a y max_y real).m_velocity.y = max_y ∨
        (Add_Velocity_Y_Max speedfactor a y max_y real).m_velocity.y =
          (Accelerate_Y speedfactor a y real).m_velocity.y) ∧
      (Add_Velocity_Y_Max speedfactor a y max_y real).m_velocity.y ≤ max_y ∧
      (Add_Velocity_Y_Max speedfactor a y max_y real).m_velocity.y ≤
        (Accelerate_Y speedfactor a y real).m_velocity.y) ∧
    (Add_Velocity_Y_Max speedfactor a y max_y real).m_velocity.x =
      (Accelerate_Y speedfactor a y real).m_velocity.x := by
  constructor
  · intro hb hv
    unfold Add_Velocity_Y_Max Add_Velocity_Y
    by_cases h : (Accelerate_Y speedfactor a y real).m_velocity.y > max_y
    · simp only [h, if_true]
      exact ⟨Or.inl trivial, le_refl_of_ne_nan hb, lt_implies_le h⟩
    · simp only [h, if_false]
      exact ⟨Or.inr trivial, not_lt_implies_le hv hb h, le_refl_of_ne_nan hv⟩
  · unfold Add_Velocity_Y_Max Add_Velocity_Y
    by_cases h : (Accelerate_Y speedfactor a y real).m_velocity.y > max_y
    · simp only [h, if_true]
    · simp only [h, if_false]

/-- Witness for C8, amended: on the sample actor (velocity (2, -1))
`Add_Velocity_Y_Max(9, 5)` clamps 8 to 5 and leaves `velocity.x` at 2. -/
theorem add_velocity_y_max_mirrors_of_not_nan_witness :
    (Add_Velocity_Y_Max (.fin 1) sampleActor (.fin 9) (.fin 5) true).m_velocity.y ≤ .fin 5 ∧
    (Add_Velocity_Y_Max (.fin 1) sampleActor (.fin 9) (.fin 5) true).m_velocity.x = .fin 2 := by
  have h := add_velocity_y_max_mirrors_of_not_nan (.fin 1) sampleActor (.fin 9) (.fin 5) true
  exact ⟨(h.1 (by decide) (by decide!)).2.1, by rw [h.2]; decide!⟩

/-! ## Z layers on single-precision values -/

theorem next_bandMinimum_le (b1 b2 : ZBand) (h : b1.rank < b2.rank) :
    bandMinimum b1.next ≤ bandMinimum b2 := by
  cases b1 <;> cases b2 <;> simp [ZBand.rank] at h <;> decide!

/-- C4, as stated, fails: a passive actor with offset 1 has the float sum
`m_z_layer + m_pos_z` = 1.01, not below the 0.10 of a front-passive actor with
offset 0; and a passive actor with offset 0 has the sum 0.01, not below the
-0.96 of a half-massive actor with offset -1. -/
theorem z_band_order_fails_outside_band :
    ZBand.passive.rank < ZBand.frontpassive.rank ∧
    (actorAt .passive (.fin 1)).m_z_layer = bandMinimum .passive ∧
    (actorAt .frontpassive (.fin 0)).m_z_layer = bandMinimum .frontpassive ∧
    ¬ ((actorAt .passive (.fin 1)).m_z_layer.add (actorAt .passive (.fin 1)).m_pos_z <
        (actorAt .frontpassive (.fin 0)).m_z_layer.add
          (actorAt .frontpassive (.fin 0)).m_pos_z) ∧
    ZBand.passive.rank < ZBand.halfmassive.rank ∧
    (actorAt .passive (.fin 0)).m_z_layer = bandMinimum .passive ∧
    (actorAt .halfmassive (.fin (-1))).m_z_layer = bandMinimum .halfmassive ∧
    ¬ ((actorAt .passive (.fin 0)).m_z_layer.add (actorAt .passive (.fin 0)).m_pos_z <
        (actorAt .halfmassive (.fin (-1))).m_z_layer.add
          (actorAt .halfmassive (.fin (-1))).m_pos_z) := by
  decide!

/-- In every band an offset of 0 leaves the float sum at the band minimum, and
below the last band an offset of one minimum step keeps the float sum below
the minimum of the band directly above. -/
theorem small_offsets_stay_in_band (b : ZBand) :
    bandMinimum b ≤ (bandMinimum b).add (.fin 0) ∧
    bandMinimum b ≤ (bandMinimum b).add ZLAYER_POS_DELTA ∧
    (b ≠ ZBand.frontpassive →
      (bandMinimum b).add (.fin 0) < bandMinimum b.next ∧
      (bandMinimum b).add ZLAYER_POS_DELTA < bandMinimum b.next) := by
  cases b <;> decide!

theorem bandMinimum_normal_form :
    bandMinimum .passive = .fin ((10737418 : ℕ) * 2 ^ (-30 : ℤ)) ∧
    bandMinimum .halfmassive = .fin ((10737418 : ℕ) * 2 ^ (-28 : ℤ)) ∧
    bandMinimum .climbable = .fin ((13421773 : ℕ) * 2 ^ (-28 : ℤ)) ∧
    bandMinimum .massive = .fin ((10737418 : ℕ) * 2 ^ (-27 : ℤ)) ∧
    bandMinimum .player = .fin ((13408351 : ℕ) * 2 ^ (-27 : ℤ)) ∧
    bandMinimum .frontpassive = .fin ((13421773 : ℕ) * 2 ^ (-27 : ℤ)) := by
  decide!

/-- An offset that is not negative never takes the float sum of a band minimum
and the offset below that minimum. -/
theorem bandMinimum_le_add_of_nonneg (b : ZBand) (off : Binary32)
    (h : Binary32.fin 0 ≤ off) : bandMinimum b ≤ (bandMinimum b).add off := by
  obtain ⟨h1, h2, h3, h4, h5, h6⟩ := bandMinimum_normal_form
  cases b
  · rw [h1]; exact le_add_of_nonneg _ _ (by norm_num) (by norm_num) (by norm_num) off h
  · rw [h2]; exact le_add_of_nonneg _ _ (by norm_num) (by norm_num) (by norm_num) off h
  · rw [h3]; exact le_add_of_nonneg _ _ (by norm_num) (by norm_num) (by norm_num) off h
  · rw [h4]; exact le_add_of_nonneg _ _ (by norm_num) (by norm_num) (by norm_num) off h
  · rw [h5]; exact le_add_of_nonneg _ _ (by norm_num) (by norm_num) (by norm_num) off h
  · rw [h6]; exact le_add_of_nonneg _ _ (by norm_num) (by norm_num) (by norm_num) off h

/-- C4, amended: for bands `B1 < B2`, an actor whose `m_z_layer` is the minimum
of `B1` and whose offset keeps the float sum of that minimum and `m_pos_z`
below the minimum of the band directly above `B1` has an effective Z, the
float sum `m_z_layer + m_pos_z`, strictly below that of every actor whose
`m_z_layer` is the minimum of `B2` and whose offset does not take the float sum
of that minimum and `m_pos_z` below the minimum of `B2`. -/
theorem z_band_order_of_in_band (b1 b2 : ZBand) (a1 a2 : cActor)
    (hb : b1.rank < b2.rank)
    (h1 : a1.m_z_layer = bandMinimum b1) (h2 : a2.m_z_layer = bandMinimum b2)
    (ho1 : (bandMinimum b1).add a1.m_pos_z < bandMinimum b1.next)
    (ho2 : bandMinimum b2 ≤ (bandMinimum b2).add a2.m_pos_z) :
    a1.m_z_layer.add a1.m_pos_z < a2.m_z_layer.add a2.m_pos_z := by
  rw [h1, h2]
  exact lt_le_trans ho1 (le_le_trans (next_bandMinimum_le b1 b2 hb) ho2)

/-- The order of C4, amended, for an upper actor whose offset is not negative. -/
theorem z_band_order_of_nonneg_upper_offset (b1 b2 : ZBand) (a1 a2 : cActor)
    (hb : b1.rank < b2.rank)
    (h1 : a1.m_z_layer = bandMinimum b1) (h2 : a2.m_z_layer = bandMinimum b2)
    (ho1 : (bandMinimum b1).add a1.m_pos_z < bandMinimum b1.next)
    (ho2 : Binary32.fin 0 ≤ a2.m_pos_z) :
    a1.m_z_layer.add a1.m_pos_z < a2.m_z_layer.add a2.m_pos_z := by
  rw [h1, h2]
  exact lt_le_trans ho1
    (le_le_trans (next_bandMinimum_le b1 b2 hb) (bandMinimum_le_add_of_nonneg b2 _ ho2))

/-- Witness for C4, amended: the sample actor in the player band with offset
`ZLAYER_POS_DELTA` lies below the sample actor in the front-passive band with
offset 0. -/
theorem z_band_order_of_in_band_witness :
    (actorAt .player ZLAYER_POS_DELTA).m_z_layer.add (actorAt .player ZLAYER_POS_DELTA).m_pos_z <
      (actorAt .frontpassive (.fin 0)).m_z_layer.add (actorAt .frontpassive (.fin 0)).m_pos_z :=
  z_band_order_of_in_band .player .frontpassive (actorAt .player ZLAYER_POS_DELTA)
    (actorAt .frontpassive (.fin 0)) (by decide) rfl rfl (by decide!) (by decide!)

end Single
end TSC
namespace SMC
namespace Scripting

open cLevel_Load_Event

/-! ## Level-load event -/

theorem afterGets_eq (n : Nat) (e : cLevel_Load_Event) : afterGets n e = e := by
  induction n with
  | zero => rfl
  | succ k ih => simpa [afterGets, Get_Save_Data] using ih

/-- C6: an event constructed from a string `s` returns exactly `s` from
`Get_Save_Data()`, on the first call and after any number of earlier calls,
and `Event_Name()` returns the string "load" whatever `s` is. -/
theorem level_load_event_round_trip (s : String) (n : Nat) :
    (Get_Save_Data (cLevel_Load_Event.new s)).1 = s ∧
    (Get_Save_Data (afterGets n (cLevel_Load_Event.new s))).1 = s ∧
    (Event_Name (cLevel_Load_Event.new s)).1 = "load" ∧
    (Get_Save_Data (Event_Name (cLevel_Load_Event.new s)).2).1 = s := by
  rw [afterGets_eq]
  exact ⟨rfl, rfl, rfl, rfl⟩

end Scripting
end SMC
